import Mathlib

/-!
Shallow embedding of `src/logistics/RoadLogistics.ts` (the `RoadLogistics`
class): a per-cycle road-maintenance scheduler.  JS numbers that carry
fractional values (thresholds, energy amounts after division by the repair
rate) are modelled as rationals `ℚ`; machine/Nat quantities (hit points,
distances, list lengths) as `Nat`.  External collaborators (the Screeps
topology functions, the room-planner oracle, the known-rooms map, the task
chaining facility) are parameters of the model, as the spec declares them
external.  The per-cycle cache (`$.structures`, `$.number`) memoizes pure
recomputation within one snapshot, so the classifier functions are modelled
as the pure functions they cache.
-/

namespace RoadLogistics

/-- A board position: the room it belongs to plus in-room coordinates. -/
structure Pos where
  roomName : String
  x : Int
  y : Int
deriving DecidableEq, Repr

/-- A road structure: stable id, position, current and maximum hit points. -/
structure StructureRoad where
  id : String
  pos : Pos
  hits : Nat
  hitsMax : Nat
deriving DecidableEq, Repr

/-- A room (region): name, its road structures, and its safety flag. -/
structure Room where
  name : String
  roads : List StructureRoad
  isSafe : Bool
deriving DecidableEq, Repr

/-- A worker's current task descriptor: task name and target position. -/
structure TaskDesc where
  name : String
  targetPos : Pos
deriving DecidableEq, Repr

/-- A worker unit (`Zerg`): name, carry capacity, carried energy
(`worker.carry.energy` in the source), and optional current task. -/
structure Zerg where
  name : String
  carryCapacity : Nat
  carryEnergy : Nat
  task : Option TaskDesc
deriving DecidableEq, Repr

/-- External topology functions: `RoomPosition.getRangeTo` (single-room
range) and `RoomPosition.getMultiRoomRangeTo` (multi-room variant). -/
structure Topology where
  getRangeTo : Pos → Pos → Nat
  getMultiRoomRangeTo : Pos → Pos → Nat

/-- The colony aggregate as seen by `RoadLogistics`: its name, anchor
position, room list, room-activity flag (`colony.isRoomActive`), the
road-plan oracle (`colony.roomPlanner.roadShouldBeHere`) and the general
work pool (`colony.overlords.work.workers`). -/
structure Colony where
  name : String
  pos : Pos
  rooms : List Room
  isRoomActive : String → Bool
  roadShouldBeHere : Pos → Bool
  workers : List Zerg

/-- The `Game.rooms` map of known rooms, as an association list. -/
structure Game where
  rooms : List (String × Room)

/-- Lookup of `Game.rooms[name]`. -/
def gameRoom (g : Game) (name : String) : Option Room :=
  (g.rooms.find? (fun p => p.1 == name)).map (fun p => p.2)

/-- The tunable settings record `RoadLogistics.settings`. -/
structure Settings where
  allowedPaversPerRoom : Nat
  criticalThreshold : ℚ
  repairThreshold : ℚ

/-- The source's default settings: 1 paver per room, thresholds 0.25, 0.9. -/
def settings : Settings := ⟨1, 1/4, 9/10⟩

/-- The Screeps game constant `REPAIR_POWER` (hits restored per energy). -/
def REPAIR_POWER : ℚ := 100

/-- The task name tag tested by the scheduler,
from `tasks/instances/repair`. -/
def repairTaskName : String := "repair"

/-- The assignment registry `_assignedWorkers`: an association list from
room name to the (insertion-ordered) list of assigned worker names,
mirroring a JS object's keyed string-array fields. -/
abbrev Registry : Type := List (String × List String)

/-- Lookup of `_assignedWorkers[roomName]`: `none` models a missing key. -/
def lookupReg : Registry → String → Option (List String)
  | [], _ => none
  | (r, l) :: rest, room => if r = room then some l else lookupReg rest room

/-- The `refresh()` method: resets the registry to the empty object. -/
def refresh : Registry := []

/-- Core of `registerWorkerAssignment`, on the worker and room names: if the
room already has an entry, append the worker only when not already present;
otherwise create a fresh one-element entry (appended as a new key). -/
def registerName : Registry → String → String → Registry
  | [], w, room => [(room, [w])]
  | (r, l) :: rest, w, room =>
    if r = room then
      (if w ∈ l then (r, l) :: rest else (r, l ++ [w]) :: rest)
    else (r, l) :: registerName rest w room

/-- The `registerWorkerAssignment(worker, room)` method. -/
def registerWorkerAssignment (s : Registry) (worker : Zerg) (room : Room) : Registry :=
  registerName s worker.name room.name

/-- The `assignedWorkers(room)` accessor:
`this._assignedWorkers[room.name] || []`. -/
def assignedWorkers (s : Registry) (room : Room) : List String :=
  (lookupReg s room.name).getD []

/-- Unconditional push used by `init()`: create the entry as `[]` when
absent, then push the worker name. -/
def pushName : Registry → String → String → Registry
  | [], room, w => [(room, [w])]
  | (r, l) :: rest, room, w =>
    if r = room then (r, l ++ [w]) :: rest else (r, l) :: pushName rest room w

/-- The `init()` method: for every worker of the colony's work pool whose
current task is a repair task, push its name into the entry of the task
target's room. -/
def initRegistry (c : Colony) (s : Registry) : Registry :=
  c.workers.foldl
    (fun acc worker =>
      match worker.task with
      | some t =>
        if t.name = repairTaskName then pushName acc t.targetPos.roomName worker.name
        else acc
      | none => acc) s

/-- A health-threshold test of the classifier filters:
`road.hits < road.hitsMax * threshold`. -/
def roadNeedsRepair (threshold : ℚ) (road : StructureRoad) : Bool :=
  decide ((road.hits : ℚ) < (road.hitsMax : ℚ) * threshold)

/-- The `_.sortBy` step of the classifiers: stable sort of roads ascending
by multi-room range from the colony anchor. -/
def sortedByRange (c : Colony) (topo : Topology) (l : List StructureRoad) : List StructureRoad :=
  List.insertionSort
    (fun a b => topo.getMultiRoomRangeTo a.pos c.pos ≤ topo.getMultiRoomRangeTo b.pos c.pos) l

/-- The `criticalRoads(room)` classifier: roads below the critical
threshold that the road plan confirms, sorted by range from the anchor. -/
def criticalRoads (c : Colony) (topo : Topology) (set : Settings) (room : Room) :
    List StructureRoad :=
  sortedByRange c topo
    (room.roads.filter
      (fun road => roadNeedsRepair set.criticalThreshold road && c.roadShouldBeHere road.pos))

/-- The `repairableRoads(room)` classifier: same filter with the repair
threshold. -/
def repairableRoads (c : Colony) (topo : Topology) (set : Settings) (room : Room) :
    List StructureRoad :=
  sortedByRange c topo
    (room.roads.filter
      (fun road => roadNeedsRepair set.repairThreshold road && c.roadShouldBeHere road.pos))

/-- Energy needed to fully repair one road:
`(road.hitsMax - road.hits) / REPAIR_POWER` (JS real arithmetic). -/
def repairCost (road : StructureRoad) : ℚ :=
  ((road.hitsMax : ℚ) - (road.hits : ℚ)) / REPAIR_POWER

/-- The `energyToRepave(room)` aggregate: sum of repair costs over the
repairable roads. -/
def energyToRepave (c : Colony) (topo : Topology) (set : Settings) (room : Room) : ℚ :=
  ((repairableRoads c topo set room).map repairCost).sum

/-- The `workerShouldRepaveRoom(worker, room)` predicate. -/
def workerShouldRepaveRoom (c : Colony) (topo : Topology) (set : Settings) (s : Registry)
    (worker : Zerg) (room : Room) : Bool :=
  let otherAssignedWorkers := (assignedWorkers s room).filter (fun n => n != worker.name)
  if otherAssignedWorkers.length < set.allowedPaversPerRoom then
    if (assignedWorkers s room).contains worker.name then
      decide ((repairableRoads c topo set room).length > 0)
    else
      decide ((criticalRoads c topo set room).length > 0)
        || decide ((worker.carryCapacity : ℚ) ≤ energyToRepave c topo set room)
  else false

/-- The `workerShouldRepave(worker)` selection: continuity branch first
(current repair task, known room, already assigned, room still worth
repaving), then a first-fit scan over the colony's rooms. -/
def workerShouldRepave (g : Game) (c : Colony) (topo : Topology) (set : Settings)
    (s : Registry) (worker : Zerg) : Option Room :=
  let continuity : Option Room :=
    match worker.task with
    | some t =>
      if t.name = repairTaskName then
        match gameRoom g t.targetPos.roomName with
        | some room =>
          if (assignedWorkers s room).contains worker.name
              && workerShouldRepaveRoom c topo set s worker room then
            some room
          else none
        | none => none
      else none
    | none => none
  match continuity with
  | some room => some room
  | none =>
    c.rooms.find?
      (fun room => c.isRoomActive room.name && room.isSafe
        && workerShouldRepaveRoom c topo set s worker room)

/-- One `_.find` call of the manifest loop: first road, in the classifier's
sorted order, that is damaged, not yet targeted and (when a previous
position exists) within range 1 of it. -/
def findPavingTarget (topo : Topology) (roads : List StructureRoad)
    (targetRefs : List String) : Option Pos → Option StructureRoad
  | some p =>
    roads.find?
      (fun road => decide (road.hits < road.hitsMax) && !(targetRefs.contains road.id)
        && decide (topo.getRangeTo road.pos p ≤ 1))
  | none =>
    roads.find?
      (fun road => decide (road.hits < road.hitsMax) && !(targetRefs.contains road.id))

/-- The `while` loop of `buildPavingManifest`, with an explicit fuel.  Each
iteration that selects a target makes at least one more road permanently
ineligible (its id joins `targetRefs`), so with fuel equal to the number of
roads the fuel never runs out before the loop's own `break`: the fuel-0 and
no-target exits coincide on every reachable state. -/
def pavingLoop (topo : Topology) (roads : List StructureRoad) :
    Nat → ℚ → List String → Option Pos → List StructureRoad
  | 0, _, _, _ => []
  | fuel + 1, energy, targetRefs, previousPos =>
    if energy ≤ 0 then []
    else
      match findPavingTarget topo roads targetRefs previousPos with
      | some target =>
        target ::
          pavingLoop topo roads fuel (energy - repairCost target)
            (target.id :: targetRefs) (some target.pos)
      | none => []

/-- The ordered repair targets selected by `buildPavingManifest(worker,
room)`: the loop starts from the worker's carried energy, no targeted ids
and no previous position. -/
def manifestTasks (c : Colony) (topo : Topology) (set : Settings) (worker : Zerg)
    (room : Room) : List StructureRoad :=
  pavingLoop topo (repairableRoads c topo set room) (repairableRoads c topo set room).length
    (worker.carryEnergy : ℚ) [] none

/-- Modelled from the spec: the external `Tasks.chain` facility (not under
`src/`) composes a sequence of tasks into a single chained task and yields
an absent result for the empty sequence; the chain is identified with its
ordered list of repair targets. -/
def chainTasks (tasks : List StructureRoad) : Option (List StructureRoad) :=
  if tasks.isEmpty then none else some tasks

/-- The `buildPavingManifest(worker, room)` method: the selected targets
chained into a single task, `none` when nothing was selected. -/
def buildPavingManifest (c : Colony) (topo : Topology) (set : Settings) (worker : Zerg)
    (room : Room) : Option (List StructureRoad) :=
  chainTasks (manifestTasks c topo set worker room)

/-! State-passing translation of the decision queries.  The class methods
receive the registry through `this`; translating method calls into explicit
state passing, each read (`assignedWorkers`) returns its result together
with the registry, and the callers thread that registry through.  The
source bodies of `workerShouldRepaveRoom` and `workerShouldRepave` contain
no assignment to `_assignedWorkers`, which the frame theorem makes
explicit. -/

/-- State-passing form of the `assignedWorkers(room)` read. -/
def assignedWorkersS (s : Registry) (room : Room) : List String × Registry :=
  ((lookupReg s room.name).getD [], s)

/-- State-passing form of `workerShouldRepaveRoom(worker, room)`. -/
def workerShouldRepaveRoomS (c : Colony) (topo : Topology) (set : Settings) (worker : Zerg)
    (room : Room) (s : Registry) : Bool × Registry :=
  let p1 := assignedWorkersS s room
  let otherAssignedWorkers := p1.1.filter (fun n => n != worker.name)
  if otherAssignedWorkers.length < set.allowedPaversPerRoom then
    let p2 := assignedWorkersS p1.2 room
    if p2.1.contains worker.name then
      (decide ((repairableRoads c topo set room).length > 0), p2.2)
    else
      ((decide ((criticalRoads c topo set room).length > 0)
        || decide ((worker.carryCapacity : ℚ) ≤ energyToRepave c topo set room)), p2.2)
  else (false, p1.2)

/-- State-passing form of the room scan of `workerShouldRepave`. -/
def scanRoomsS (c : Colony) (topo : Topology) (set : Settings) (worker : Zerg) :
    List Room → Registry → Option Room × Registry
  | [], s => (none, s)
  | room :: rest, s =>
    if c.isRoomActive room.name && room.isSafe then
      let p := workerShouldRepaveRoomS c topo set worker room s
      if p.1 then (some room, p.2) else scanRoomsS c topo set worker rest p.2
    else scanRoomsS c topo set worker rest s

/-- State-passing form of `workerShouldRepave(worker)`, with the source's
short-circuit of `includes && workerShouldRepaveRoom`. -/
def workerShouldRepaveS (g : Game) (c : Colony) (topo : Topology) (set : Settings)
    (worker : Zerg) (s : Registry) : Option Room × Registry :=
  match worker.task with
  | some t =>
    if t.name = repairTaskName then
      match gameRoom g t.targetPos.roomName with
      | some room =>
        let p1 := assignedWorkersS s room
        if p1.1.contains worker.name then
          let p2 := workerShouldRepaveRoomS c topo set worker room p1.2
          if p2.1 then (some room, p2.2) else scanRoomsS c topo set worker c.rooms p2.2
        else scanRoomsS c topo set worker c.rooms p1.2
      | none => scanRoomsS c topo set worker c.rooms s
    else scanRoomsS c topo set worker c.rooms s
  | none => scanRoomsS c topo set worker c.rooms s

/-- A driver-visible tracker operation within one planning cycle:
a registry reset or a worker/room registration. -/
inductive TrackerOp where
  | reset : TrackerOp
  | register (worker room : String) : TrackerOp
deriving DecidableEq, Repr

/-- Apply one tracker operation to the registry. -/
def applyOp (s : Registry) : TrackerOp → Registry
  | .reset => refresh
  | .register w room => registerName s w room

/-- Apply a sequence of tracker operations, oldest first. -/
def applyOps (s : Registry) (ops : List TrackerOp) : Registry :=
  ops.foldl applyOp s

/-- The cross-region uniqueness property of the claimed invariant: a worker
name occurs in the lists of at most one room of the registry. -/
def workerUniqueAcrossRooms (s : Registry) : Prop :=
  ∀ w r1 r2, w ∈ (lookupReg s r1).getD [] → w ∈ (lookupReg s r2).getD [] → r1 = r2

/-- The spatial-contiguity property of a manifest: every selected road
after the first lies within range 1 of the previously selected road's
position (the optional argument carries the previous position). -/
def AdjacentChain (topo : Topology) : Option Pos → List StructureRoad → Prop
  | _, [] => True
  | none, road :: rest => AdjacentChain topo (some road.pos) rest
  | some p, road :: rest =>
    topo.getRangeTo road.pos p ≤ 1 ∧ AdjacentChain topo (some road.pos) rest

/-! Concrete instances used by counterexamples and witnesses.  The paving
scenario of the spec: one room holding three repairable roads at anchor
ranges 1, 2, 3, each costing 10 energy to repair, consecutive roads
adjacent, and a worker carrying 25 energy. -/

/-- Chebyshev range between two positions of the same room; positions of
different rooms are out of any finite range (the source's
`getRangeTo` yields Infinity across rooms, here a value larger than any
in-room range). -/
def chebRange (a b : Pos) : Nat :=
  if a.roomName = b.roomName then max (a.x - b.x).natAbs (a.y - b.y).natAbs else 2500

/-- A concrete topology: ranges and multi-room ranges both Chebyshev. -/
def topoC : Topology := ⟨chebRange, chebRange⟩

/-- The anchor position of the concrete colony. -/
def anchorPos : Pos := ⟨"W1N1", 0, 0⟩

/-- Road at range 1 from the anchor, 1000 hits missing (cost 10). -/
def road1C : StructureRoad := ⟨"road1", ⟨"W1N1", 1, 0⟩, 0, 1000⟩

/-- Road at range 2, adjacent to `road1C`, cost 10. -/
def road2C : StructureRoad := ⟨"road2", ⟨"W1N1", 2, 0⟩, 0, 1000⟩

/-- Road at range 3, adjacent to `road2C`, cost 10. -/
def road3C : StructureRoad := ⟨"road3", ⟨"W1N1", 3, 0⟩, 0, 1000⟩

/-- The concrete room holding the three roads. -/
def roomC : Room := ⟨"W1N1", [road1C, road2C, road3C], true⟩

/-- The concrete colony: one room, every room active, the road plan
confirming every position, no pooled workers. -/
def colonyC : Colony :=
  ⟨"overmind", anchorPos, [roomC], fun _ => true, fun _ => true, []⟩

/-- The concrete worker of the paving scenario: 25 energy carried. -/
def workerC : Zerg := ⟨"worker1", 100, 25, none⟩

/-- A second, distinct empty room used by the double-booking scenario. -/
def roomB2 : Room := ⟨"W2N2", [], true⟩

/-- The capacity scenario's region: empty room named B. -/
def roomB : Room := ⟨"B", [], true⟩

/-- A registry in which room B already holds worker W1. -/
def regB : Registry := [("B", ["W1"])]

/-- The unassigned candidate worker of the capacity scenario. -/
def workerW2 : Zerg := ⟨"W2", 50, 0, none⟩

/-- The continuity scenario's region A: an empty room, so its repairable
set is empty. -/
def roomA4 : Room := ⟨"A", [], true⟩

/-- The continuity scenario's worker: mid-repair-task targeting region A. -/
def workerW4 : Zerg := ⟨"W4", 50, 10, some ⟨repairTaskName, ⟨"A", 5, 5⟩⟩⟩

/-- Known rooms of the continuity scenario: region A only. -/
def gameA4 : Game := ⟨[("A", roomA4)]⟩

/-- The continuity scenario's colony: region A is its only room. -/
def colonyA4 : Colony := ⟨"c4", anchorPos, [roomA4], fun _ => true, fun _ => true, []⟩

/-- Registry of the continuity scenario: worker W4 assigned to region A. -/
def regA4 : Registry := [("A", ["W4"])]

/-- A worker whose repair task targets a room name unknown to the game. -/
def workerW9 : Zerg := ⟨"W9", 50, 10, some ⟨repairTaskName, ⟨"Z", 0, 0⟩⟩⟩

/-- A game with no known rooms. -/
def game9 : Game := ⟨[]⟩

/-- A colony with no rooms, for the unknown-room scenario. -/
def colony9 : Colony := ⟨"c9", anchorPos, [], fun _ => true, fun _ => true, []⟩

/-! Evaluation lemmas shared by several results. -/

/-- One unfolding of the manifest loop when energy remains and a target is
found. -/
lemma pavingLoop_step_some (topo : Topology) (roads : List StructureRoad) (fuel : Nat)
    (energy : ℚ) (targetRefs : List String) (previousPos : Option Pos)
    (target : StructureRoad) (hE : ¬ energy ≤ 0)
    (hf : findPavingTarget topo roads targetRefs previousPos = some target) :
    pavingLoop topo roads (fuel + 1) energy targetRefs previousPos =
      target ::
        pavingLoop topo roads fuel (energy - repairCost target)
          (target.id :: targetRefs) (some target.pos) := by
  simp [pavingLoop, hE, hf]

/-- Any manifest of three repairable roads of cost 10 each, pairwise
distinct ids, consecutive roads adjacent, picked up by a worker carrying 25
energy, consists of all three roads: the loop only stops once the remaining
energy is non-positive, so the third road is still selected while 5 energy
remains. -/
lemma manifest_three_adjacent (c : Colony) (topo : Topology) (set : Settings)
    (worker : Zerg) (room : Room) (r1 r2 r3 : StructureRoad)
    (hrep : repairableRoads c topo set room = [r1, r2, r3])
    (h1 : r1.hits < r1.hitsMax) (h2 : r2.hits < r2.hitsMax) (h3 : r3.hits < r3.hitsMax)
    (hc1 : repairCost r1 = 10) (hc2 : repairCost r2 = 10) (hc3 : repairCost r3 = 10)
    (hd12 : r1.id ≠ r2.id) (hd13 : r1.id ≠ r3.id) (hd23 : r2.id ≠ r3.id)
    (ha2 : topo.getRangeTo r2.pos r1.pos ≤ 1) (ha3 : topo.getRangeTo r3.pos r2.pos ≤ 1)
    (he : worker.carryEnergy = 25) :
    buildPavingManifest c topo set worker room = some [r1, r2, r3] := by
  have hf1 : findPavingTarget topo [r1, r2, r3] [] none = some r1 := by
    simp [findPavingTarget, h1]
  have hf2 : findPavingTarget topo [r1, r2, r3] [r1.id] (some r1.pos) = some r2 := by
    simp [findPavingTarget, h1, h2, Ne.symm hd12, ha2]
  have hf3 : findPavingTarget topo [r1, r2, r3] [r2.id, r1.id] (some r2.pos) = some r3 := by
    simp [findPavingTarget, h1, h2, h3, Ne.symm hd13, Ne.symm hd23, ha3]
  unfold buildPavingManifest manifestTasks
  rw [hrep, he]
  simp only [List.length_cons, List.length_nil]
  rw [pavingLoop_step_some _ _ _ _ _ _ _ (by norm_num) hf1, hc1]
  rw [pavingLoop_step_some _ _ _ _ _ _ _ (by norm_num) hf2, hc2]
  rw [pavingLoop_step_some _ _ _ _ _ _ _ (by norm_num) hf3, hc3]
  simp [pavingLoop, chainTasks]

/-- The concrete room's repairable roads: all three, ordered by range. -/
lemma repairableRoadsC_eval :
    repairableRoads colonyC topoC settings roomC = [road1C, road2C, road3C] := by
  norm_num [repairableRoads, sortedByRange, roadNeedsRepair, colonyC, topoC, roomC, settings,
    road1C, road2C, road3C, anchorPos, chebRange, List.insertionSort, List.orderedInsert]

/-- The concrete room's critical roads: all three roads are fully broken,
hence also critical. -/
lemma criticalRoadsC_eval :
    criticalRoads colonyC topoC settings roomC = [road1C, road2C, road3C] := by
  norm_num [criticalRoads, sortedByRange, roadNeedsRepair, colonyC, topoC, roomC, settings,
    road1C, road2C, road3C, anchorPos, chebRange, List.insertionSort, List.orderedInsert]

/-- The manifest the source builds in the spec's paving scenario: all three
roads, not two. -/
lemma manifestC_eval :
    buildPavingManifest colonyC topoC settings workerC roomC =
      some [road1C, road2C, road3C] := by
  refine manifest_three_adjacent colonyC topoC settings workerC roomC road1C road2C road3C
    repairableRoadsC_eval (by decide) (by decide) (by decide) ?_ ?_ ?_
    (by decide) (by decide) (by decide) (by decide) (by decide) rfl
  all_goals norm_num [repairCost, road1C, road2C, road3C, REPAIR_POWER]

/-! Registry lemmas. -/

/-- After registering, the room's entry is the old list with the worker
appended exactly when it was not already present (a missing entry behaves
as the empty list). -/
lemma lookupReg_registerName_self (s : Registry) (w r : String) :
    lookupReg (registerName s w r) r =
      some (if w ∈ (lookupReg s r).getD [] then (lookupReg s r).getD []
            else (lookupReg s r).getD [] ++ [w]) := by
  induction s with
  | nil => simp [registerName, lookupReg]
  | cons e rest ih =>
    obtain ⟨r0, l⟩ := e
    by_cases h : r0 = r
    · subst h
      by_cases hw : w ∈ l <;> simp [registerName, lookupReg, hw]
    · simp [registerName, lookupReg, h, ih]

/-- Registering the same worker and room twice equals registering once. -/
lemma registerName_idem (s : Registry) (w r : String) :
    registerName (registerName s w r) w r = registerName s w r := by
  induction s with
  | nil => simp [registerName]
  | cons e rest ih =>
    obtain ⟨r0, l⟩ := e
    by_cases h : r0 = r
    · subst h
      by_cases hw : w ∈ l <;> simp [registerName, hw]
    · simp [registerName, h, ih]

/-- If the worker occurred at most once in the room's list, it occurs
exactly once after registration. -/
lemma count_registerName_self (s : Registry) (w r : String)
    (h : ((lookupReg s r).getD []).count w ≤ 1) :
    ((lookupReg (registerName s w r) r).getD []).count w = 1 := by
  rw [lookupReg_registerName_self]
  by_cases hw : w ∈ (lookupReg s r).getD []
  · have h1 : 0 < ((lookupReg s r).getD []).count w := List.count_pos_iff.mpr hw
    simp only [hw, if_pos, Option.getD_some]
    omega
  · have h0 : ((lookupReg s r).getD []).count w = 0 := List.count_eq_zero.mpr hw
    simp [hw, h0]

/-- Registration preserves within-room uniqueness of every entry. -/
lemma registerName_nodup (s : Registry) (w r : String)
    (h : ∀ e ∈ s, e.2.Nodup) : ∀ e ∈ registerName s w r, e.2.Nodup := by
  induction s with
  | nil => simp [registerName]
  | cons e0 rest ih =>
    obtain ⟨r0, l⟩ := e0
    have hl : l.Nodup := by simpa using h (r0, l) (List.mem_cons_self _ _)
    have hrest : ∀ e ∈ rest, e.2.Nodup := fun e he => h e (List.mem_cons_of_mem _ he)
    by_cases hr : r0 = r
    · subst hr
      by_cases hw : w ∈ l
      · simpa [registerName, hw] using h
      · intro e he
        simp only [registerName, if_pos rfl, eq_self_iff_true, if_true, if_neg hw,
          List.mem_cons] at he
        rcases he with he | he
        · subst he
          simp [List.nodup_append, hl, hw]
        · exact hrest e he
    · intro e he
      simp only [registerName, if_neg hr, List.mem_cons] at he
      rcases he with he | he
      · subst he; simpa using hl
      · exact ih hrest e he

/-- Every registry produced from an initial one with per-room-unique
entries by a sequence of resets and registrations has per-room-unique
entries. -/
lemma applyOps_nodup (ops : List TrackerOp) :
    ∀ s : Registry, (∀ e ∈ s, e.2.Nodup) → ∀ e ∈ applyOps s ops, e.2.Nodup := by
  induction ops with
  | nil => intro s hs; simpa [applyOps] using hs
  | cons op rest ih =>
    intro s hs
    have hstep : ∀ e ∈ applyOp s op, e.2.Nodup := by
      cases op with
      | reset => simp [applyOp, refresh]
      | register w room => exact registerName_nodup s w room hs
    simpa [applyOps] using ih (applyOp s op) hstep

/-! Manifest-loop invariants. -/

/-- A found paving target's id is not among the already-targeted ids. -/
lemma findPavingTarget_not_targeted (topo : Topology) (roads : List StructureRoad)
    (targetRefs : List String) (prev : Option Pos) (target : StructureRoad)
    (hf : findPavingTarget topo roads targetRefs prev = some target) :
    target.id ∉ targetRefs := by
  cases prev with
  | none =>
    have h := List.find?_some hf
    simp only [Bool.and_eq_true, Bool.not_eq_true', decide_eq_true_eq] at h
    simpa using h.2
  | some p =>
    have h := List.find?_some hf
    simp only [Bool.and_eq_true, Bool.not_eq_true', decide_eq_true_eq] at h
    simpa using h.1.2

/-- With a previous position, a found paving target lies within range 1 of
it. -/
lemma findPavingTarget_adjacent (topo : Topology) (roads : List StructureRoad)
    (targetRefs : List String) (p : Pos) (target : StructureRoad)
    (hf : findPavingTarget topo roads targetRefs (some p) = some target) :
    topo.getRangeTo target.pos p ≤ 1 := by
  have h := List.find?_some hf
  simp only [Bool.and_eq_true, Bool.not_eq_true', decide_eq_true_eq] at h
  exact h.2

/-- Every road selected by the loop has an id outside the incoming targeted
set, and the selected ids are pairwise distinct. -/
lemma pavingLoop_ids (topo : Topology) (roads : List StructureRoad) :
    ∀ (fuel : Nat) (energy : ℚ) (targetRefs : List String) (previousPos : Option Pos),
      (∀ x ∈ pavingLoop topo roads fuel energy targetRefs previousPos, x.id ∉ targetRefs)
      ∧ ((pavingLoop topo roads fuel energy targetRefs previousPos).map
          (fun x => x.id)).Nodup := by
  intro fuel
  induction fuel with
  | zero => intro energy refs prev; simp [pavingLoop]
  | succ fuel ih =>
    intro energy refs prev
    by_cases hE : energy ≤ 0
    · simp [pavingLoop, hE]
    · cases hf : findPavingTarget topo roads refs prev with
      | none => simp [pavingLoop, hE, hf]
      | some target =>
        rw [pavingLoop_step_some _ _ _ _ _ _ _ hE hf]
        obtain ⟨ihFresh, ihNodup⟩ :=
          ih (energy - repairCost target) (target.id :: refs) (some target.pos)
        constructor
        · intro x hx
          rcases List.mem_cons.mp hx with hx | hx
          · subst hx; exact findPavingTarget_not_targeted _ _ _ _ _ hf
          · have := ihFresh x hx
            intro hmem
            exact this (List.mem_cons_of_mem _ hmem)
        · rw [List.map_cons, List.nodup_cons]
          refine ⟨?_, ihNodup⟩
          intro hmem
          rcases List.mem_map.mp hmem with ⟨x, hx, hid⟩
          exact ihFresh x hx (hid ▸ List.mem_cons_self _ _)

/-- Every road selected by the loop after the first (or, when a previous
position is given, every selected road) continues a range-1-adjacent
chain. -/
lemma pavingLoop_adjacent (topo : Topology) (roads : List StructureRoad) :
    ∀ (fuel : Nat) (energy : ℚ) (targetRefs : List String) (previousPos : Option Pos),
      AdjacentChain topo previousPos
        (pavingLoop topo roads fuel energy targetRefs previousPos) := by
  intro fuel
  induction fuel with
  | zero => intro energy refs prev; cases prev <;> simp [pavingLoop, AdjacentChain]
  | succ fuel ih =>
    intro energy refs prev
    by_cases hE : energy ≤ 0
    · cases prev <;> simp [pavingLoop, hE, AdjacentChain]
    · cases hf : findPavingTarget topo roads refs prev with
      | none => cases prev <;> simp [pavingLoop, hE, hf, AdjacentChain]
      | some target =>
        rw [pavingLoop_step_some _ _ _ _ _ _ _ hE hf]
        cases prev with
        | none =>
          show AdjacentChain topo (some target.pos) _
          exact ih _ _ _
        | some p =>
          exact ⟨findPavingTarget_adjacent _ _ _ _ _ hf, ih _ _ _⟩

/-! State-preservation lemmas for the decision queries. -/

/-- The stateful room predicate returns the registry unchanged. -/
lemma workerShouldRepaveRoomS_snd (c : Colony) (topo : Topology) (set : Settings)
    (worker : Zerg) (room : Room) (s : Registry) :
    (workerShouldRepaveRoomS c topo set worker room s).2 = s := by
  unfold workerShouldRepaveRoomS assignedWorkersS
  dsimp only
  split
  · split <;> rfl
  · rfl

/-- The stateful room predicate computes the same boolean as the direct
predicate. -/
lemma workerShouldRepaveRoomS_fst (c : Colony) (topo : Topology) (set : Settings)
    (worker : Zerg) (room : Room) (s : Registry) :
    (workerShouldRepaveRoomS c topo set worker room s).1 =
      workerShouldRepaveRoom c topo set s worker room := by
  unfold workerShouldRepaveRoomS workerShouldRepaveRoom assignedWorkersS assignedWorkers
  dsimp only
  split
  · split <;> rfl
  · rfl

/-- The stateful room scan returns the registry unchanged. -/
lemma scanRoomsS_snd (c : Colony) (topo : Topology) (set : Settings) (worker : Zerg) :
    ∀ (rooms : List Room) (s : Registry),
      (scanRoomsS c topo set worker rooms s).2 = s := by
  intro rooms
  induction rooms with
  | nil => intro s; rfl
  | cons room rest ih =>
    intro s
    unfold scanRoomsS
    dsimp only
    split
    · split
      · exact workerShouldRepaveRoomS_snd c topo set worker room s
      · rw [ih]; exact workerShouldRepaveRoomS_snd c topo set worker room s
    · exact ih s

/-- The stateful room scan computes the same first-fit result as the
direct `find?` scan. -/
lemma scanRoomsS_fst (c : Colony) (topo : Topology) (set : Settings) (worker : Zerg) :
    ∀ (rooms : List Room) (s : Registry),
      (scanRoomsS c topo set worker rooms s).1 =
        rooms.find?
          (fun room => c.isRoomActive room.name && room.isSafe
            && workerShouldRepaveRoom c topo set s worker room) := by
  intro rooms
  induction rooms with
  | nil => intro s; rfl
  | cons room rest ih =>
    intro s
    unfold scanRoomsS
    dsimp only
    by_cases hA : (c.isRoomActive room.name && room.isSafe) = true
    · rw [if_pos hA]
      by_cases hP : workerShouldRepaveRoom c topo set s worker room = true
      · rw [if_pos (by rw [workerShouldRepaveRoomS_fst]; exact hP)]
        rw [List.find?_cons_of_pos _ (by simp [hA, hP])]
      · rw [if_neg (by rw [workerShouldRepaveRoomS_fst]; exact hP)]
        rw [workerShouldRepaveRoomS_snd, ih,
          List.find?_cons_of_neg _ (by simp [hP])]
    · rw [if_neg hA]
      rw [ih, List.find?_cons_of_neg _ (by simp_all)]

/-- The stateful selection query returns the registry unchanged. -/
lemma workerShouldRepaveS_snd (g : Game) (c : Colony) (topo : Topology) (set : Settings)
    (worker : Zerg) (s : Registry) :
    (workerShouldRepaveS g c topo set worker s).2 = s := by
  unfold workerShouldRepaveS assignedWorkersS
  cases worker.task with
  | none => exact scanRoomsS_snd c topo set worker c.rooms s
  | some t =>
    dsimp only
    split
    · cases gameRoom g t.targetPos.roomName with
      | none => exact scanRoomsS_snd c topo set worker c.rooms s
      | some room =>
        dsimp only
        split
        · split
          · exact workerShouldRepaveRoomS_snd c topo set worker room s
          · rw [scanRoomsS_snd]; exact workerShouldRepaveRoomS_snd c topo set worker room s
        · exact scanRoomsS_snd c topo set worker c.rooms s
    · exact scanRoomsS_snd c topo set worker c.rooms s

/-- The stateful selection query computes the same region as the direct
`workerShouldRepave`. -/
lemma workerShouldRepaveS_fst (g : Game) (c : Colony) (topo : Topology) (set : Settings)
    (worker : Zerg) (s : Registry) :
    (workerShouldRepaveS g c topo set worker s).1 =
      workerShouldRepave g c topo set s worker := by
  unfold workerShouldRepaveS workerShouldRepave assignedWorkersS
  cases worker.task with
  | none => exact scanRoomsS_fst c topo set worker c.rooms s
  | some t =>
    dsimp only
    by_cases hN : t.name = repairTaskName
    · rw [if_pos hN, if_pos hN]
      cases gameRoom g t.targetPos.roomName with
      | none => exact scanRoomsS_fst c topo set worker c.rooms s
      | some room =>
        dsimp only
        by_cases hIn : ((lookupReg s room.name).getD []).contains worker.name = true
        · rw [if_pos hIn]
          by_cases hP : workerShouldRepaveRoom c topo set s worker room = true
          · rw [if_pos (by rw [workerShouldRepaveRoomS_fst]; exact hP)]
            have hc : ((assignedWorkers s room).contains worker.name
                && workerShouldRepaveRoom c topo set s worker room) = true := by
              simp only [assignedWorkers, hIn, hP, Bool.and_self]
            rw [hc]
            simp
          · rw [if_neg (by rw [workerShouldRepaveRoomS_fst]; exact hP)]
            have hP' : workerShouldRepaveRoom c topo set s worker room = false := by
              simpa using hP
            have hc : ((assignedWorkers s room).contains worker.name
                && workerShouldRepaveRoom c topo set s worker room) = false := by
              simp only [assignedWorkers, hP', Bool.and_false]
            rw [hc, workerShouldRepaveRoomS_snd]
            simp only [Bool.false_eq_true, if_false]
            exact scanRoomsS_fst c topo set worker c.rooms s
        · rw [if_neg hIn]
          have hc : ((assignedWorkers s room).contains worker.name
              && workerShouldRepaveRoom c topo set s worker room) = false := by
            have hIn' : ((lookupReg s room.name).getD []).contains worker.name = false := by
              simpa using hIn
            simp only [assignedWorkers, hIn', Bool.false_and]
          rw [hc]
          simp only [Bool.false_eq_true, if_false]
          exact scanRoomsS_fst c topo set worker c.rooms s
    · rw [if_neg hN, if_neg hN]
      exact scanRoomsS_fst c topo set worker c.rooms s

/-! Claim theorems. -/

/-- C3: whenever the workers assigned to a region other than the candidate
worker itself number at least `allowedPaversPerRoom`, the predicate
`workerShouldRepaveRoom` returns false, regardless of the region's critical
or repairable road state. -/
theorem C3_workerShouldRepaveRoom_at_capacity (c : Colony) (topo : Topology) (set : Settings)
    (s : Registry) (worker : Zerg) (room : Room)
    (h : set.allowedPaversPerRoom ≤
      ((assignedWorkers s room).filter (fun n => n != worker.name)).length) :
    workerShouldRepaveRoom c topo set s worker room = false := by
  unfold workerShouldRepaveRoom
  dsimp only
  rw [if_neg (by omega)]

/-- C3 witness: with the default cap 1, region B already holding worker W1,
the unassigned candidate W2 is refused. -/
theorem C3_workerShouldRepaveRoom_at_capacity_witness :
    settings.allowedPaversPerRoom ≤
      ((assignedWorkers regB roomB).filter (fun n => n != workerW2.name)).length
    ∧ workerShouldRepaveRoom colonyC topoC settings regB workerW2 roomB = false :=
  ⟨by decide,
   C3_workerShouldRepaveRoom_at_capacity colonyC topoC settings regB workerW2 roomB (by decide)⟩

/-- C5: `registerWorkerAssignment` is idempotent: registering the same
worker and region twice from a state in which the worker occurred at most
once in that region's list yields the state of a single registration, with
exactly one occurrence of the worker in the region's list. -/
theorem C5_registerWorkerAssignment_idem (s : Registry) (worker : Zerg) (room : Room)
    (h : ((lookupReg s room.name).getD []).count worker.name ≤ 1) :
    registerWorkerAssignment (registerWorkerAssignment s worker room) worker room
      = registerWorkerAssignment s worker room
    ∧ List.count worker.name
        ((lookupReg (registerWorkerAssignment s worker room) room.name).getD []) = 1 :=
  ⟨registerName_idem s worker.name room.name,
   count_registerName_self s worker.name room.name h⟩

/-- C5 witness: double registration from the fresh registry leaves a single
occurrence and the same registry as a single registration. -/
theorem C5_registerWorkerAssignment_idem_witness :
    registerWorkerAssignment (registerWorkerAssignment refresh workerC roomC) workerC roomC
      = registerWorkerAssignment refresh workerC roomC
    ∧ List.count workerC.name
        ((lookupReg (registerWorkerAssignment refresh workerC roomC) roomC.name).getD []) = 1 :=
  C5_registerWorkerAssignment_idem refresh workerC roomC (by decide)

/-- C8: `assignedWorkers` is total and returns the empty list for a region
with no registry entry. -/
theorem C8_assignedWorkers_total (s : Registry) (room : Room)
    (h : lookupReg s room.name = none) :
    assignedWorkers s room = [] := by
  simp [assignedWorkers, h]

/-- C8 witness: the registry holding only room B yields the empty list for
the unregistered scenario room. -/
theorem C8_assignedWorkers_total_witness :
    lookupReg regB roomC.name = none ∧ assignedWorkers regB roomC = [] :=
  ⟨by decide, C8_assignedWorkers_total regB roomC (by decide)⟩

/-- C9: when the worker's current repair task targets a room name absent
from the known rooms, `workerShouldRepave` does not fail: the continuity
branch is skipped and the result is exactly the first-fit scan over the
colony's rooms. -/
theorem C9_workerShouldRepave_unknown_room (g : Game) (c : Colony) (topo : Topology)
    (set : Settings) (s : Registry) (worker : Zerg) (t : TaskDesc)
    (ht : worker.task = some t) (hn : t.name = repairTaskName)
    (hg : gameRoom g t.targetPos.roomName = none) :
    workerShouldRepave g c topo set s worker =
      c.rooms.find?
        (fun room => c.isRoomActive room.name && room.isSafe
          && workerShouldRepaveRoom c topo set s worker room) := by
  unfold workerShouldRepave
  rw [ht]
  simp only [if_pos hn, hg]

/-- C9 witness: a repair task targeting the unknown room Z, with no rooms
to scan, yields no region and no failure. -/
theorem C9_workerShouldRepave_unknown_room_witness :
    workerShouldRepave game9 colony9 topoC settings refresh workerW9 = none := by
  rw [C9_workerShouldRepave_unknown_room game9 colony9 topoC settings refresh workerW9
    ⟨repairTaskName, ⟨"Z", 0, 0⟩⟩ rfl rfl rfl]
  rfl

/-- C10: the decision queries never modify the assignment registry: in the
state-passing embedding both return the registry they received, so
`assignedWorkers` reads the same list for every region before and after. -/
theorem C10_repave_queries_read_only (g : Game) (c : Colony) (topo : Topology)
    (set : Settings) (s : Registry) (worker : Zerg) (room : Room) :
    (workerShouldRepaveRoomS c topo set worker room s).2 = s
    ∧ (workerShouldRepaveS g c topo set worker s).2 = s
    ∧ ∀ r : Room, assignedWorkers (workerShouldRepaveS g c topo set worker s).2 r
        = assignedWorkers s r :=
  ⟨workerShouldRepaveRoomS_snd c topo set worker room s,
   workerShouldRepaveS_snd g c topo set worker s,
   fun r => by rw [workerShouldRepaveS_snd]⟩

/-- C1 counterexample: in the spec's paving scenario (three repairable
roads at anchor ranges 1, 2, 3, each costing 10 energy, consecutively
adjacent, worker carrying 25 energy) the source builds a chain of 3 repair
actions, not 2. -/
theorem C1_scenario_counterexample :
    Option.map List.length (buildPavingManifest colonyC topoC settings workerC roomC) = some 3
    ∧ Option.map List.length (buildPavingManifest colonyC topoC settings workerC roomC)
        ≠ some 2 := by
  rw [manifestC_eval]
  simp

/-- C1 amended: in that scenario the manifest is a chain of exactly 3
repair actions covering all three roads, with total nominal cost 30: the
loop stops only once remaining energy is non-positive, so the third road is
still selected while 5 energy remains. -/
theorem C1_buildPavingManifest_three_actions (c : Colony) (topo : Topology) (set : Settings)
    (worker : Zerg) (room : Room) (r1 r2 r3 : StructureRoad)
    (hrep : repairableRoads c topo set room = [r1, r2, r3])
    (h1 : r1.hits < r1.hitsMax) (h2 : r2.hits < r2.hitsMax) (h3 : r3.hits < r3.hitsMax)
    (hc1 : repairCost r1 = 10) (hc2 : repairCost r2 = 10) (hc3 : repairCost r3 = 10)
    (hd12 : r1.id ≠ r2.id) (hd13 : r1.id ≠ r3.id) (hd23 : r2.id ≠ r3.id)
    (ha2 : topo.getRangeTo r2.pos r1.pos ≤ 1) (ha3 : topo.getRangeTo r3.pos r2.pos ≤ 1)
    (he : worker.carryEnergy = 25) :
    buildPavingManifest c topo set worker room = some [r1, r2, r3]
    ∧ repairCost r1 + repairCost r2 + repairCost r3 = 30 := by
  refine ⟨manifest_three_adjacent c topo set worker room r1 r2 r3 hrep h1 h2 h3
    hc1 hc2 hc3 hd12 hd13 hd23 ha2 ha3 he, ?_⟩
  rw [hc1, hc2, hc3]
  norm_num

/-- C1 witness: the concrete scenario instance satisfies every hypothesis
and yields the 3-action chain of total cost 30. -/
theorem C1_buildPavingManifest_three_actions_witness :
    buildPavingManifest colonyC topoC settings workerC roomC =
      some [road1C, road2C, road3C]
    ∧ repairCost road1C + repairCost road2C + repairCost road3C = 30 :=
  C1_buildPavingManifest_three_actions colonyC topoC settings workerC roomC
    road1C road2C road3C repairableRoadsC_eval (by decide) (by decide) (by decide)
    (by norm_num [repairCost, road1C, REPAIR_POWER])
    (by norm_num [repairCost, road2C, REPAIR_POWER])
    (by norm_num [repairCost, road3C, REPAIR_POWER])
    (by decide) (by decide) (by decide) (by decide) (by decide) rfl

/-- C2 counterexample: registering the same worker for two different
regions from a fresh registry records it under both rooms, so cross-region
uniqueness is not preserved by every operation sequence. -/
theorem C2_double_booking_counterexample :
    ¬ workerUniqueAcrossRooms
      (registerWorkerAssignment (registerWorkerAssignment refresh workerC roomC)
        workerC roomB2) := by
  intro h
  have h2 := h "worker1" "W1N1" "W2N2" (by decide) (by decide)
  exact absurd h2 (by decide)

/-- C2 amended: resets and registrations preserve within-region uniqueness
(no worker id occurs twice in any single region's list), while cross-region
uniqueness is not enforced. -/
theorem C2_within_room_unique (ops : List TrackerOp) (e : String × List String)
    (he : e ∈ applyOps refresh ops) : e.2.Nodup :=
  applyOps_nodup ops refresh (by simp [refresh]) e he

/-- C2 witness: after one registration from the fresh registry the single
entry has a duplicate-free list. -/
theorem C2_within_room_unique_witness :
    (("W1N1", ["worker1"]) : String × List String).2.Nodup :=
  C2_within_room_unique [TrackerOp.register "worker1" "W1N1"]
    ("W1N1", ["worker1"]) (by decide)

/-- C4: a worker mid-repair-task in a region whose repairable set is empty
and in whose list it is recorded is never sent back to that region; and
when no room passes the scan conditions either, the query returns none. -/
theorem C4_workerShouldRepave_empty_repairable (g : Game) (c : Colony) (topo : Topology)
    (set : Settings) (s : Registry) (worker : Zerg) (t : TaskDesc) (roomA : Room)
    (ht : worker.task = some t) (hn : t.name = repairTaskName)
    (hg : gameRoom g t.targetPos.roomName = some roomA)
    (hmem : worker.name ∈ assignedWorkers s roomA)
    (hrep : repairableRoads c topo set roomA = []) :
    workerShouldRepave g c topo set s worker ≠ some roomA
    ∧ ((∀ room ∈ c.rooms,
        (c.isRoomActive room.name && room.isSafe
          && workerShouldRepaveRoom c topo set s worker room) = false) →
      workerShouldRepave g c topo set s worker = none) := by
  have hcontains : (assignedWorkers s roomA).contains worker.name = true := by
    simpa using hmem
  have hRoomFalse : workerShouldRepaveRoom c topo set s worker roomA = false := by
    unfold workerShouldRepaveRoom
    dsimp only
    split
    all_goals first
      | rfl
      | simp_all [hrep]
  have hcont : workerShouldRepave g c topo set s worker =
      c.rooms.find?
        (fun room => c.isRoomActive room.name && room.isSafe
          && workerShouldRepaveRoom c topo set s worker room) := by
    unfold workerShouldRepave
    rw [ht]
    simp only [if_pos hn, hg, hcontains, hRoomFalse, Bool.and_false, Bool.false_eq_true,
      if_false]
  constructor
  · rw [hcont]
    intro hfind
    have hpred := List.find?_some hfind
    rw [hRoomFalse] at hpred
    simp at hpred
  · intro hall
    rw [hcont]
    refine List.find?_eq_none.mpr (fun room hr => ?_)
    rw [hall room hr]
    simp

/-- C4 witness: the empty region A with its mid-task worker W4 yields no
region at all. -/
theorem C4_workerShouldRepave_empty_repairable_witness :
    workerShouldRepave gameA4 colonyA4 topoC settings regA4 workerW4 ≠ some roomA4
    ∧ workerShouldRepave gameA4 colonyA4 topoC settings regA4 workerW4 = none :=
  have h := C4_workerShouldRepave_empty_repairable gameA4 colonyA4 topoC settings regA4
    workerW4 ⟨repairTaskName, ⟨"A", 5, 5⟩⟩ roomA4 rfl rfl (by decide) (by decide) rfl
  ⟨h.1, h.2 (by decide)⟩

/-- C6: whenever the critical threshold is at most the repair threshold,
every critical road of a region is also one of its repairable roads. -/
theorem C6_criticalRoads_subset (c : Colony) (topo : Topology) (set : Settings) (room : Room)
    (h : set.criticalThreshold ≤ set.repairThreshold) :
    ∀ road ∈ criticalRoads c topo set room, road ∈ repairableRoads c topo set room := by
  intro road hr
  unfold criticalRoads sortedByRange at hr
  rw [List.mem_insertionSort, List.mem_filter] at hr
  obtain ⟨hmem, hpred⟩ := hr
  unfold repairableRoads sortedByRange
  rw [List.mem_insertionSort, List.mem_filter]
  refine ⟨hmem, ?_⟩
  simp only [Bool.and_eq_true] at hpred ⊢
  refine ⟨?_, hpred.2⟩
  have hlt : (road.hits : ℚ) < (road.hitsMax : ℚ) * set.criticalThreshold := by
    simpa [roadNeedsRepair] using hpred.1
  have hle : (road.hitsMax : ℚ) * set.criticalThreshold
      ≤ (road.hitsMax : ℚ) * set.repairThreshold :=
    mul_le_mul_of_nonneg_left h (by positivity)
  simp only [roadNeedsRepair, decide_eq_true_eq]
  exact lt_of_lt_of_le hlt hle

/-- C6 witness: with the default thresholds 0.25 ≤ 0.9, the critical road
at range 1 of the scenario room is also repairable. -/
theorem C6_criticalRoads_subset_witness :
    settings.criticalThreshold ≤ settings.repairThreshold
    ∧ road1C ∈ criticalRoads colonyC topoC settings roomC
    ∧ road1C ∈ repairableRoads colonyC topoC settings roomC :=
  have hmem : road1C ∈ criticalRoads colonyC topoC settings roomC := by
    rw [criticalRoadsC_eval]; simp
  ⟨by norm_num [settings],
   hmem,
   C6_criticalRoads_subset colonyC topoC settings roomC (by norm_num [settings]) road1C hmem⟩

/-- C7: a chain built by `buildPavingManifest` never targets the same
structure id twice, and every selected structure after the first lies
within range 1 of the previously selected structure's position. -/
theorem C7_buildPavingManifest_chain (c : Colony) (topo : Topology) (set : Settings)
    (worker : Zerg) (room : Room) (l : List StructureRoad)
    (h : buildPavingManifest c topo set worker room = some l) :
    (l.map (fun road => road.id)).Nodup ∧ AdjacentChain topo none l := by
  unfold buildPavingManifest chainTasks at h
  split at h
  · exact absurd h (by simp)
  · have hl := Option.some.inj h
    subst hl
    unfold manifestTasks
    exact ⟨(pavingLoop_ids topo _ _ _ _ _).2, pavingLoop_adjacent topo _ _ _ _ _⟩

/-- C7 witness: the scenario chain of three roads has pairwise-distinct ids
and is range-1 contiguous. -/
theorem C7_buildPavingManifest_chain_witness :
    (([road1C, road2C, road3C]).map (fun road => road.id)).Nodup
    ∧ AdjacentChain topoC none [road1C, road2C, road3C] :=
  C7_buildPavingManifest_chain colonyC topoC settings workerC roomC
    [road1C, road2C, road3C] manifestC_eval

end RoadLogistics
